import Mathlib

/-!
Shallow embedding of the Booth-Planner layout geometry core
(`src/utils/geometry.ts`, `src/constants.ts` and the geometry-mutating
handlers of `src/App.tsx`) together with theorems settling the spec
claims about it.  JavaScript numbers are modelled as real numbers;
`Math.cos` / `Math.sin` as `Real.cos` / `Real.sin`; `Math.round` as
`round : ℝ → ℤ` (both round halves up); the JS remainder operator `%`
(truncated remainder) is modelled explicitly by `jsRem`.
-/

open Real
open scoped Classical

/-- Constant `GRID_SIZE` from `src/constants.ts` (5 world units per grid step). -/
def GRID_SIZE : ℝ := 5

/-- Enum `ItemType` from `src/types.ts`. -/
inductive ItemType where
  | BOOTH
  | PILLAR
deriving DecidableEq

/-- A 2-D point (`Point` / the raw drawing points of `src/types.ts`). -/
structure Point where
  x : ℝ
  y : ℝ

/-- The fields of `PlannerItem` (`src/types.ts`) that the geometry core
reads or writes.  The optional TS field `points?: Point[]` is modelled
as a list, `[]` standing for "absent" (the code only ever tests
`item.points && item.points.length > 0`); the optional `manualArea`
is a real number, `0` standing for "absent" (the code only tests its
truthiness).  Cosmetic fields not read by any geometry operation are
omitted. -/
structure PlannerItem where
  id : String
  type : ItemType
  x : ℝ
  y : ℝ
  w : ℝ
  h : ℝ
  rotation : ℝ
  points : List Point := []
  locked : Bool := false
  label : String := ""
  useManualArea : Bool := false
  manualArea : ℝ := 0

/-- An axis-aligned rectangle, the return shape of `getBoundingBox`. -/
structure Rect where
  x : ℝ
  y : ℝ
  w : ℝ
  h : ℝ

/-- One entry of `dragState.initialItemsState` in `src/App.tsx`:
the pointer-down snapshot `{ x, y, w, h, rotation }` of an item. -/
structure Snapshot where
  x : ℝ
  y : ℝ
  w : ℝ
  h : ℝ
  rotation : ℝ

/-- Truncation toward zero, as used by the JS `%` operator. -/
noncomputable def jsTrunc (x : ℝ) : ℤ :=
  if 0 ≤ x then ⌊x⌋ else ⌈x⌉

/-- The JS remainder operator `a % b` on numbers: `a - b * trunc (a / b)`. -/
noncomputable def jsRem (a b : ℝ) : ℝ :=
  a - b * (jsTrunc (a / b) : ℝ)

/-- Function `Math.sign`: `-1` for negatives, `1` for positives, `0` for zero. -/
noncomputable def mathSign (x : ℝ) : ℝ :=
  if x < 0 then -1 else if 0 < x then 1 else 0

/-- Function `getBoundingBox` from `src/utils/geometry.ts`: the axis-aligned
bounding box of a possibly rotated item.  The JS guard
`!item.rotation || item.rotation === 0` is the test `rotation = 0`. -/
noncomputable def getBoundingBox (item : PlannerItem) : Rect :=
  if item.rotation = 0 then
    ⟨item.x, item.y, item.w, item.h⟩
  else
    let cx := item.x + item.w / 2
    let cy := item.y + item.h / 2
    let rad := item.rotation * Real.pi / 180
    let absCos := |Real.cos rad|
    let absSin := |Real.sin rad|
    let newW := item.w * absCos + item.h * absSin
    let newH := item.w * absSin + item.h * absCos
    ⟨cx - newW / 2, cy - newH / 2, newW, newH⟩

/-- Function `getIntersectionArea` from `src/utils/geometry.ts`. -/
noncomputable def getIntersectionArea (r1 r2 : PlannerItem) : ℝ :=
  let box1 := getBoundingBox r1
  let box2 := getBoundingBox r2
  let xOverlap := max 0 (min (box1.x + box1.w) (box2.x + box2.w) - max box1.x box2.x)
  let yOverlap := max 0 (min (box1.y + box1.h) (box2.y + box2.h) - max box1.y box2.y)
  xOverlap * yOverlap

/-- Function `calculateBoothNetArea` from `src/utils/geometry.ts`. -/
noncomputable def calculateBoothNetArea (booth : PlannerItem) (allItems : List PlannerItem) : ℝ :=
  let boothArea := booth.w * booth.h
  let pillars := allItems.filter (fun i => i.type == ItemType.PILLAR)
  let lostArea := (pillars.map (fun pillar => getIntersectionArea booth pillar)).sum
  max 0 (boothArea - lostArea)

/-- The return shape of `normalizePoints`. -/
structure NormResult where
  x : ℝ
  y : ℝ
  w : ℝ
  h : ℝ
  points : List Point

/-- Function `normalizePoints` from `src/utils/geometry.ts`.  The JS loop starts
its running minima/maxima at `±Infinity`; over a non-empty list this is
the fold below starting from the first point's coordinates. -/
noncomputable def normalizePoints (points : List Point) : Option NormResult :=
  match points with
  | [] => none
  | p :: _ =>
    let minX := points.foldl (fun a q => min a q.x) p.x
    let maxX := points.foldl (fun a q => max a q.x) p.x
    let minY := points.foldl (fun a q => min a q.y) p.y
    let maxY := points.foldl (fun a q => max a q.y) p.y
    let w := max 1 (maxX - minX)
    let h := max 1 (maxY - minY)
    let normalizedPoints := points.map (fun q => Point.mk ((q.x - minX) / w) ((q.y - minY) / h))
    some ⟨minX, minY, w, h, normalizedPoints⟩

/-- The inverse transform named by the spec: map a normalized point `p`
back to world coordinates `(p.x*w + minX, p.y*h + minY)`. -/
noncomputable def denormalizePoint (r : NormResult) (p : Point) : Point :=
  ⟨p.x * r.w + r.x, p.y * r.h + r.y⟩

/-- The `direction` argument of `handleSplitItem` in `src/App.tsx`. -/
inductive SplitDirection where
  | horizontal
  | vertical
deriving DecidableEq

/-- The `splitWidth` flag computed by `handleSplitItem`:
`isRotated = Math.abs(rotation % 180) === 90`;
`splitWidth = isRotated ? !wantHorizontalVisual : wantHorizontalVisual`. -/
noncomputable def splitAlongWidth (rotation : ℝ) (direction : SplitDirection) : Prop :=
  if |jsRem rotation 180| = 90 then ¬(direction = SplitDirection.horizontal)
  else direction = SplitDirection.horizontal

/-- The child-generating loop of `handleSplitItem` (`src/App.tsx`,
lines 135-186).  `freshId` stands in for the random id generator
(`Math.random().toString(36).substr(2, 9)`), supplying the id of the
`i`-th child. -/
noncomputable def splitChildren (item : PlannerItem) (parts : ℕ) (direction : SplitDirection)
    (freshId : ℕ → String) : List PlannerItem :=
  let w := item.w
  let h := item.h
  let rad := item.rotation * Real.pi / 180
  let c := Real.cos rad
  let s := Real.sin rad
  let parentCx := item.x + w / 2
  let parentCy := item.y + h / 2
  let splitWidth := splitAlongWidth item.rotation direction
  let childW := if splitWidth then w / parts else w
  let childH := if splitWidth then h else h / parts
  (List.range parts).map fun (i : ℕ) =>
    let offsetX := if splitWidth then ((i : ℝ) * childW + childW / 2) - w / 2 else 0
    let offsetY := if splitWidth then 0 else ((i : ℝ) * childH + childH / 2) - h / 2
    let rotatedOffsetX := offsetX * c - offsetY * s
    let rotatedOffsetY := offsetX * s + offsetY * c
    let childCx := parentCx + rotatedOffsetX
    let childCy := parentCy + rotatedOffsetY
    { item with
        id := freshId i
        x := childCx - childW / 2
        y := childCy - childH / 2
        w := childW
        h := childH
        label := (if item.label = "" then "B" else item.label) ++ "-" ++ toString (i + 1)
        locked := false
        manualArea := if item.useManualArea then
            (if item.manualArea ≠ 0 then item.manualArea / parts else 0)
          else 0 }

/-- Handler `handleSplitItem` from `src/App.tsx` at the item-collection level:
find the target, reject non-booths and polygon items, otherwise replace
the target by its children.  Note: there is no `locked` check here. -/
noncomputable def handleSplitItem (items : List PlannerItem) (id : String) (parts : ℕ)
    (direction : SplitDirection) (freshId : ℕ → String) : List PlannerItem :=
  match items.find? (fun i => i.id == id) with
  | none => items
  | some item =>
    if item.type ≠ ItemType.BOOTH then items
    else if 0 < item.points.length then items
    else (items.filter fun i => !(i.id == id)) ++ splitChildren item parts direction freshId

/-- The handle vector rotated into the item's local frame
(`vx/vy/hx/hy` of the `ITEM_RESIZE` branch in `src/App.tsx`). -/
noncomputable def localHandle (initialItem : Snapshot) : ℝ × ℝ :=
  let proxyItem : PlannerItem :=
    { id := "", type := ItemType.BOOTH, x := initialItem.x, y := initialItem.y,
      w := initialItem.w, h := initialItem.h, rotation := initialItem.rotation }
  let aabb := getBoundingBox proxyItem
  let cx := initialItem.x + initialItem.w / 2
  let cy := initialItem.y + initialItem.h / 2
  let worldHandleX := aabb.x + aabb.w
  let worldHandleY := aabb.y + aabb.h
  let vx := worldHandleX - cx
  let vy := worldHandleY - cy
  let rad := -initialItem.rotation * Real.pi / 180
  (vx * Real.cos rad - vy * Real.sin rad, vx * Real.sin rad + vy * Real.cos rad)

/-- The sign pair `(signW, signH)` of the `ITEM_RESIZE` branch:
`signW = hxAbs < 1 ? 0 : Math.sign(hx)` and likewise for `signH`. -/
noncomputable def anchorSigns (initialItem : Snapshot) : ℝ × ℝ :=
  let hx := (localHandle initialItem).1
  let hy := (localHandle initialItem).2
  (if |hx| < 1 then 0 else mathSign hx, if |hy| < 1 then 0 else mathSign hy)

/-- The geometry computation of the `ITEM_RESIZE` branch of
`handleMouseMove` (`src/App.tsx`, lines 626-694): from the pointer-down
snapshot and the screen drag delta `(dx, dy)` at view scale `scale`,
the item's new `{x, y, w, h}`. -/
noncomputable def resizeGeom (initialItem : Snapshot) (dx dy scale : ℝ) : Rect :=
  let signW := (anchorSigns initialItem).1
  let signH := (anchorSigns initialItem).2
  let rad := -initialItem.rotation * Real.pi / 180
  let worldDx := dx / scale
  let worldDy := dy / scale
  let localDx := worldDx * Real.cos rad - worldDy * Real.sin rad
  let localDy := worldDx * Real.sin rad + worldDy * Real.cos rad
  let dW := localDx * signW
  let dH := localDy * signH
  let rawNewW := initialItem.w + dW
  let rawNewH := initialItem.h + dH
  let newW := max GRID_SIZE ((round (rawNewW / GRID_SIZE) : ℤ) * GRID_SIZE)
  let newH := max GRID_SIZE ((round (rawNewH / GRID_SIZE) : ℤ) * GRID_SIZE)
  let effectiveDW := newW - initialItem.w
  let effectiveDH := newH - initialItem.h
  let cslX := effectiveDW / 2 * signW
  let cslY := effectiveDH / 2 * signH
  let radWorld := initialItem.rotation * Real.pi / 180
  let cswX := cslX * Real.cos radWorld - cslY * Real.sin radWorld
  let cswY := cslX * Real.sin radWorld + cslY * Real.cos radWorld
  let oldCx := initialItem.x + initialItem.w / 2
  let oldCy := initialItem.y + initialItem.h / 2
  let newCx := oldCx + cswX
  let newCy := oldCy + cswY
  ⟨newCx - newW / 2, newCy - newH / 2, newW, newH⟩

/-- One `ITEM_RESIZE` pointer-move event applied to the dragged item:
`return { ...item, x: newX, y: newY, w: newW, h: newH }`. -/
noncomputable def resizeStep (item : PlannerItem) (initialItem : Snapshot) (dx dy scale : ℝ) :
    PlannerItem :=
  let g := resizeGeom initialItem dx dy scale
  { item with x := g.x, y := g.y, w := g.w, h := g.h }

/-- A whole drag: a sequence of pointer-move deltas, each recomputed
against the same pointer-down snapshot (the code always reads
`dragState.initialItemsState`, never the previous frame). -/
noncomputable def resizeDrag (item : PlannerItem) (initialItem : Snapshot) (scale : ℝ)
    (deltas : List (ℝ × ℝ)) : PlannerItem :=
  deltas.foldl (fun cur d => resizeStep cur initialItem d.1 d.2 scale) item

/-- The pointer-down snapshot taken of an item
(`initialStates[sid] = { x, y, w, h, rotation: it.rotation || 0 }`). -/
noncomputable def snapshotOf (item : PlannerItem) : Snapshot :=
  ⟨item.x, item.y, item.w, item.h, item.rotation⟩

/-- World coordinates of the anchor (fixed) corner of a rectangle:
the corner at local offset `(-signW*w/2, -signH*h/2)` from the center,
rotated by the rectangle's rotation. -/
noncomputable def fixedCornerWorld (s : Snapshot) (signW signH : ℝ) : ℝ × ℝ :=
  let cx := s.x + s.w / 2
  let cy := s.y + s.h / 2
  let rad := s.rotation * Real.pi / 180
  let lx := -(signW * s.w / 2)
  let ly := -(signH * s.h / 2)
  (cx + lx * Real.cos rad - ly * Real.sin rad, cy + lx * Real.sin rad + ly * Real.cos rad)

/-- The `ITEM_MOVE` branch of `handleMouseMove` (`src/App.tsx`,
lines 594-614): snap the world delta to the grid and move every
unlocked item that has a pointer-down snapshot.  The record
`dragState.initialItemsState` is modelled as a partial map from ids. -/
noncomputable def moveStep (items : List PlannerItem) (initialItemsState : String → Option Snapshot)
    (dx dy scale : ℝ) : List PlannerItem :=
  let worldDx := dx / scale
  let worldDy := dy / scale
  let snappedDx := (round (worldDx / GRID_SIZE) : ℤ) * GRID_SIZE
  let snappedDy := (round (worldDy / GRID_SIZE) : ℤ) * GRID_SIZE
  items.map fun item =>
    if item.locked then item
    else
      match initialItemsState item.id with
      | none => item
      | some initialState =>
        { item with x := initialState.x + snappedDx, y := initialState.y + snappedDy }

/-- The `ITEM_RESIZE` branch of `handleMouseMove` at the collection
level: only the active item is touched, and only if it is unlocked and
has a snapshot. -/
noncomputable def resizeItems (items : List PlannerItem) (activeResizeId : String)
    (initialItemsState : String → Option Snapshot) (dx dy scale : ℝ) : List PlannerItem :=
  items.map fun item =>
    if !(item.id == activeResizeId) then item
    else if item.locked then item
    else
      match initialItemsState activeResizeId with
      | none => item
      | some initialItem => resizeStep item initialItem dx dy scale

/-- Handler `deleteItem` from `src/App.tsx` (lines 87-102): remove selected
items, keeping any that are locked. -/
def deleteItems (items : List PlannerItem) (selectedIds : List String) : List PlannerItem :=
  items.filter fun item =>
    if !(selectedIds.contains item.id) then true else item.locked

/-- The Ctrl/Meta-click duplicate branch of `handleMouseDownItem`
(`src/App.tsx`, lines 412-447): append a copy of the found item with
the freshly generated id, `x`/`y` offset by 10 and `locked` reset. -/
def duplicateItem (items : List PlannerItem) (id newId : String) : List PlannerItem :=
  match items.find? (fun i => i.id == id) with
  | none => items
  | some existingItem =>
    items ++ [{ existingItem with
                  id := newId
                  x := existingItem.x + 10
                  y := existingItem.y + 10
                  locked := false }]

/-- The app state read and written by the Escape branch of
`handleKeyDown` in `src/App.tsx`. -/
structure DrawingState where
  isDrawing : Bool
  drawingPoints : List Point
  cursorPos : Option Point
  selectedIds : List String

/-- The Escape branch of `handleKeyDown` (`src/App.tsx`, lines 709-725):
while drawing, clear the placed points (or leave drawing mode when none
are placed); otherwise clear the selection. -/
def handleEscape (s : DrawingState) : DrawingState :=
  if s.isDrawing then
    if 0 < s.drawingPoints.length then
      { s with drawingPoints := [], cursorPos := none }
    else
      { s with isDrawing := false, cursorPos := none }
  else if 0 < s.selectedIds.length then
    { s with selectedIds := [] }
  else s

/-! Concrete inputs used by witnesses and counterexamples. -/

/-- A fresh-id generator stand-in used at concrete inputs. -/
def cFreshId (i : ℕ) : String := "c" ++ toString i

/-- The booth of the spec's concrete scenario: `(0,0,200,200)`, rotation 0. -/
def c5Booth : PlannerItem :=
  { id := "booth", type := ItemType.BOOTH, x := 0, y := 0, w := 200, h := 200, rotation := 0 }

/-- The pillar of the spec's concrete scenario: `(150,150,40,40)`. -/
def c5Pillar : PlannerItem :=
  { id := "pillar", type := ItemType.PILLAR, x := 150, y := 150, w := 40, h := 40, rotation := 0 }

/-- A locked booth used to exercise the lock policy. -/
def cLockedBooth : PlannerItem :=
  { id := "b1", type := ItemType.BOOTH, x := 0, y := 0, w := 200, h := 200, rotation := 0,
    locked := true }

/-- A narrow unlocked booth (one grid unit wide) used for the split
clamping counterexample. -/
def cNarrowBooth : PlannerItem :=
  { id := "b2", type := ItemType.BOOTH, x := 0, y := 0, w := 5, h := 200, rotation := 0 }

/-- A rotated rectangle at 360 degrees used for the bounding-box
equality counterexample. -/
def cFullTurn : PlannerItem :=
  { id := "b3", type := ItemType.BOOTH, x := 0, y := 0, w := 200, h := 100, rotation := 360 }

/-- An unrotated item matching its own pointer-down snapshot, for the
resize witnesses. -/
def c3Item : PlannerItem :=
  { id := "r1", type := ItemType.BOOTH, x := 0, y := 0, w := 200, h := 100, rotation := 0 }

/-- The pointer-down snapshot of `c3Item`. -/
def c3Snap : Snapshot := ⟨0, 0, 200, 100, 0⟩

/-- A drawing-mode state with two placed points. -/
def c9State : DrawingState :=
  { isDrawing := true, drawingPoints := [⟨1, 2⟩, ⟨3, 4⟩], cursorPos := none, selectedIds := [] }

/-- A drawing-mode state with no placed points. -/
def c9Empty : DrawingState :=
  { isDrawing := true, drawingPoints := [], cursorPos := none, selectedIds := [] }

/-- A concrete triangle of world points for the normalization witness. -/
def c7Pts : List Point := [⟨0, 0⟩, ⟨4, 0⟩, ⟨2, 3⟩]

/-- The normalization of `c7Pts`, written out. -/
noncomputable def c7Res : NormResult := ⟨0, 0, 4, 3, [⟨0, 0⟩, ⟨1, 0⟩, ⟨2 / 4, 1⟩]⟩

/-- One grid unit is a positive length. -/
theorem grid_size_pos : (0 : ℝ) < GRID_SIZE := by norm_num [GRID_SIZE]

/-- Intersection areas are never negative: both overlap factors are
clamped with `max 0`. -/
theorem getIntersectionArea_nonneg (r1 r2 : PlannerItem) : 0 ≤ getIntersectionArea r1 r2 := by
  simp only [getIntersectionArea]
  exact mul_nonneg (le_max_left _ _) (le_max_left _ _)

/-- C1: for every booth with positive sides and every list of zones (any
positions, sizes and rotations), `calculateBoothNetArea` returns a value
that is never negative and never exceeds the booth's gross area
`booth.w * booth.h`. -/
theorem c1_net_area_bounds (booth : PlannerItem) (allItems : List PlannerItem)
    (hw : 0 < booth.w) (hh : 0 < booth.h) :
    0 ≤ calculateBoothNetArea booth allItems ∧
      calculateBoothNetArea booth allItems ≤ booth.w * booth.h := by
  have hL : 0 ≤ ((allItems.filter (fun i => i.type == ItemType.PILLAR)).map
      (fun pillar => getIntersectionArea booth pillar)).sum := by
    apply List.sum_nonneg
    intro a ha
    simp only [List.mem_map] at ha
    obtain ⟨p, _, rfl⟩ := ha
    exact getIntersectionArea_nonneg booth p
  refine ⟨?_, ?_⟩
  · simp only [calculateBoothNetArea]
    exact le_max_left _ _
  · simp only [calculateBoothNetArea]
    exact max_le (le_of_lt (mul_pos hw hh)) (by linarith)

/-- C1 witness: the bounds at the concrete booth/pillar configuration. -/
theorem c1_witness :
    (0 : ℝ) < c5Booth.w ∧ (0 : ℝ) < c5Booth.h ∧
      (0 ≤ calculateBoothNetArea c5Booth [c5Pillar] ∧
        calculateBoothNetArea c5Booth [c5Pillar] ≤ c5Booth.w * c5Booth.h) :=
  ⟨by norm_num [c5Booth], by norm_num [c5Booth],
    c1_net_area_bounds c5Booth [c5Pillar] (by norm_num [c5Booth]) (by norm_num [c5Booth])⟩

/-- The bounding boxes of the unrotated concrete booth and pillar are
the rectangles themselves. -/
theorem c5_boxes :
    getBoundingBox c5Booth = ⟨0, 0, 200, 200⟩ ∧ getBoundingBox c5Pillar = ⟨150, 150, 40, 40⟩ := by
  constructor <;> simp [getBoundingBox, c5Booth, c5Pillar]

/-- At the concrete scenario the intersection area is the 40 by 40
overlap, 1600. -/
theorem c5_inter_eq : getIntersectionArea c5Booth c5Pillar = 1600 := by
  simp only [getIntersectionArea, c5_boxes.1, c5_boxes.2]
  norm_num [min_def, max_def]

/-- At the concrete scenario the net area is `200*200 - 1600 = 38400`. -/
theorem c5_net_eq : calculateBoothNetArea c5Booth [c5Pillar] = 38400 := by
  have hfilter : ([c5Pillar].filter (fun i => i.type == ItemType.PILLAR)) = [c5Pillar] := by
    simp [c5Pillar]
  simp only [calculateBoothNetArea, hfilter, List.map_cons, List.map_nil, List.sum_cons,
    List.sum_nil, c5_inter_eq]
  norm_num [c5Booth, max_def]

/-- C5 counterexample: at the spec's concrete input - booth
`(0,0,200,200)` rotation 0, pillar `(150,150,40,40)` - the code does
not return 2500 and 37500 (the pillar lies inside the booth, so the
overlap is 40 by 40, not 50 by 50). -/
theorem c5_counterexample :
    getIntersectionArea c5Booth c5Pillar ≠ 2500 ∧
      calculateBoothNetArea c5Booth [c5Pillar] ≠ 37500 := by
  rw [c5_inter_eq, c5_net_eq]
  norm_num

/-- C5 amended: at the concrete input, `getIntersectionArea` returns
`40*40 = 1600` and `calculateBoothNetArea` returns
`200*200 - 1600 = 38400`. -/
theorem c5_amended_concrete :
    getIntersectionArea c5Booth c5Pillar = 1600 ∧
      calculateBoothNetArea c5Booth [c5Pillar] = 38400 :=
  ⟨c5_inter_eq, c5_net_eq⟩

/-- C9 counterexample: pressing Escape while drawing with two placed
points clears all of them and stays in drawing mode - it does not keep
the earlier point. -/
theorem c9_counterexample :
    (handleEscape c9State).isDrawing = true ∧
    (handleEscape c9State).drawingPoints = [] ∧
    (handleEscape c9State).drawingPoints ≠ [Point.mk 1 2] := by
  refine ⟨?_, ?_, ?_⟩ <;> simp [handleEscape, c9State]

/-- C9 amended: in the drawing state, Escape clears all placed points
(staying in drawing mode) when at least one point has been placed, and
exits the drawing state when no points have been placed. -/
theorem c9_escape_drawing (s : DrawingState) (hd : s.isDrawing = true) :
    (s.drawingPoints ≠ [] →
      (handleEscape s).drawingPoints = [] ∧ (handleEscape s).isDrawing = true) ∧
    (s.drawingPoints = [] →
      (handleEscape s).isDrawing = false ∧ (handleEscape s).drawingPoints = []) := by
  constructor
  · intro hne
    have hlen : 0 < s.drawingPoints.length := List.length_pos.mpr hne
    simp [handleEscape, hd, hlen]
  · intro hemp
    simp [handleEscape, hd, hemp]

/-- C9 witness: the amended behavior at the two concrete drawing
states. -/
theorem c9_witness :
    ((handleEscape c9State).drawingPoints = [] ∧ (handleEscape c9State).isDrawing = true) ∧
    ((handleEscape c9Empty).isDrawing = false ∧ (handleEscape c9Empty).drawingPoints = []) :=
  ⟨(c9_escape_drawing c9State rfl).1 (by simp [c9State]),
   (c9_escape_drawing c9Empty rfl).2 rfl⟩

/-- C10: Ctrl/Meta-click duplication appends a copy of the clicked item
(locked or not) carrying the freshly generated id, `locked := false`
and `x`, `y` offset by exactly `+10`, while the existing items - the
original included - are passed through unchanged. -/
theorem c10_duplicate (items : List PlannerItem) (id newId : String) (orig : PlannerItem)
    (h : items.find? (fun i => i.id == id) = some orig) :
    duplicateItem items id newId =
      items ++ [{ orig with id := newId, x := orig.x + 10, y := orig.y + 10, locked := false }] := by
  simp only [duplicateItem, h]

/-- C10 witness: duplicating a locked booth. -/
theorem c10_witness :
    duplicateItem [cLockedBooth] "b1" "n1" =
      [cLockedBooth] ++
        [{ cLockedBooth with id := "n1", x := cLockedBooth.x + 10, y := cLockedBooth.y + 10, locked := false }] :=
  c10_duplicate [cLockedBooth] "b1" "n1" cLockedBooth (by simp [cLockedBooth])

/-- C4 amended: a locked zone is left untouched - present with all its
fields unchanged - by the move step, the resize step and delete.  (The
split handler is the exception, see the counterexample.) -/
theorem c4_locked_rejects_move_resize_delete (items : List PlannerItem) (item : PlannerItem)
    (initialItemsState : String → Option Snapshot) (activeResizeId : String)
    (selectedIds : List String) (dx dy scale : ℝ)
    (hmem : item ∈ items) (hl : item.locked = true) :
    item ∈ moveStep items initialItemsState dx dy scale ∧
    item ∈ resizeItems items activeResizeId initialItemsState dx dy scale ∧
    item ∈ deleteItems items selectedIds := by
  refine ⟨?_, ?_, ?_⟩
  · simp only [moveStep]
    refine List.mem_map.mpr ⟨item, hmem, ?_⟩
    simp [hl]
  · simp only [resizeItems]
    refine List.mem_map.mpr ⟨item, hmem, ?_⟩
    simp [hl]
  · simp only [deleteItems]
    refine List.mem_filter.mpr ⟨hmem, ?_⟩
    simp [hl]

/-- C4 witness: the locked booth survives move, resize and delete. -/
theorem c4_witness :
    cLockedBooth ∈ moveStep [cLockedBooth] (fun _ => none) 1 1 1 ∧
    cLockedBooth ∈ resizeItems [cLockedBooth] "b1" (fun _ => none) 1 1 1 ∧
    cLockedBooth ∈ deleteItems [cLockedBooth] ["b1"] :=
  c4_locked_rejects_move_resize_delete [cLockedBooth] cLockedBooth (fun _ => none) "b1"
    ["b1"] 1 1 1 (by simp) rfl

/-- C4 counterexample: `handleSplitItem` has no `locked` check - a
locked booth is removed from the collection and replaced by its two
(unlocked) children, so split is not rejected for locked zones. -/
theorem c4_counterexample :
    cLockedBooth.locked = true ∧
    ((handleSplitItem [cLockedBooth] "b1" 2 SplitDirection.horizontal cFreshId).filter
        (fun i => i.id == "b1")) = [] ∧
    (handleSplitItem [cLockedBooth] "b1" 2 SplitDirection.horizontal cFreshId).length = 2 := by
  have hfind : ([cLockedBooth].find? (fun i => i.id == "b1")) = some cLockedBooth := by
    simp [cLockedBooth]
  refine ⟨rfl, ?_, ?_⟩
  · simp only [handleSplitItem, hfind]
    rw [if_neg (by simp [cLockedBooth]), if_neg (by simp [cLockedBooth])]
    simp [cLockedBooth, splitChildren, cFreshId, List.range_succ]
    decide
  · simp only [handleSplitItem, hfind]
    rw [if_neg (by simp [cLockedBooth]), if_neg (by simp [cLockedBooth])]
    simp [cLockedBooth, splitChildren]

/-- C2: splitting a non-polygon rectangular zone into `n ∈ {2,4,6,8}`
parts, in either direction and at rotations `{0,45,90,180,270}`,
produces exactly `n` children whose areas `childW*childH` sum exactly
to the parent's `w*h` - the split step does no rounding. -/
theorem c2_split_area_conservation (item : PlannerItem) (parts : ℕ)
    (direction : SplitDirection) (freshId : ℕ → String)
    (hpoly : item.points = []) (hparts : parts ∈ ({2, 4, 6, 8} : Set ℕ))
    (hrot : item.rotation ∈ ({0, 45, 90, 180, 270} : Set ℝ)) :
    (splitChildren item parts direction freshId).length = parts ∧
    ((splitChildren item parts direction freshId).map (fun c => c.w * c.h)).sum
      = item.w * item.h := by
  have hp0 : (parts : ℝ) ≠ 0 := by
    have hne : parts ≠ 0 := by
      simp only [Set.mem_insert_iff, Set.mem_singleton_iff] at hparts
      rcases hparts with rfl | rfl | rfl | rfl <;> norm_num
    exact_mod_cast hne
  refine ⟨by simp [splitChildren], ?_⟩
  have key : ∀ p ∈ (splitChildren item parts direction freshId).map (fun c => c.w * c.h),
      p = (if splitAlongWidth item.rotation direction then item.w / parts else item.w) *
          (if splitAlongWidth item.rotation direction then item.h else item.h / parts) := by
    intro p hp
    simp only [splitChildren, List.map_map, List.mem_map, List.mem_range,
      Function.comp] at hp
    obtain ⟨i, _, rfl⟩ := hp
    simp
  rw [List.sum_eq_card_nsmul _ _ key]
  have hlen : ((splitChildren item parts direction freshId).map (fun c => c.w * c.h)).length
      = parts := by
    simp [splitChildren]
  rw [hlen, nsmul_eq_mul]
  by_cases hsw : splitAlongWidth item.rotation direction
  · rw [if_pos hsw, if_pos hsw]
    field_simp
  · rw [if_neg hsw, if_neg hsw]
    field_simp

/-- C2 witness: splitting the concrete booth into two horizontal
parts. -/
theorem c2_witness :
    (splitChildren c5Booth 2 SplitDirection.horizontal cFreshId).length = 2 ∧
    ((splitChildren c5Booth 2 SplitDirection.horizontal cFreshId).map (fun c => c.w * c.h)).sum
      = c5Booth.w * c5Booth.h :=
  c2_split_area_conservation c5Booth 2 SplitDirection.horizontal cFreshId
    (by simp [c5Booth]) (by simp) (by simp [c5Booth])

/-- C8 amended: the interactive resize clamps both sizes to at least one
grid unit, but the split step divides exactly without clamping - its
children merely stay positive when the parent's sides are positive. -/
theorem c8_resize_clamps_split_positive (item : PlannerItem) (initialItem : Snapshot)
    (dx dy scale : ℝ) (parts : ℕ) (direction : SplitDirection) (freshId : ℕ → String)
    (child : PlannerItem) (hw : 0 < item.w) (hh : 0 < item.h) (hparts : 0 < parts)
    (hchild : child ∈ splitChildren item parts direction freshId) :
    GRID_SIZE ≤ (resizeStep item initialItem dx dy scale).w ∧
    GRID_SIZE ≤ (resizeStep item initialItem dx dy scale).h ∧
    (0 < child.w ∧ 0 < child.h) := by
  have hpr : (0 : ℝ) < parts := by exact_mod_cast hparts
  refine ⟨?_, ?_, ?_⟩
  · simp only [resizeStep, resizeGeom]
    exact le_max_left _ _
  · simp only [resizeStep, resizeGeom]
    exact le_max_left _ _
  · simp only [splitChildren, List.mem_map, List.mem_range] at hchild
    obtain ⟨i, _, rfl⟩ := hchild
    constructor
    · simp only
      by_cases hsw : splitAlongWidth item.rotation direction
      · rw [if_pos hsw]; exact div_pos hw hpr
      · rw [if_neg hsw]; exact hw
    · simp only
      by_cases hsw : splitAlongWidth item.rotation direction
      · rw [if_pos hsw]; exact hh
      · rw [if_neg hsw]; exact div_pos hh hpr

/-- C8 witness: at the concrete booth, resize output sizes are at least
one grid unit and the first split child has positive sizes. -/
theorem c8_witness :
    GRID_SIZE ≤ (resizeStep c5Booth c3Snap 30 40 1).w ∧
    GRID_SIZE ≤ (resizeStep c5Booth c3Snap 30 40 1).h ∧
    (0 < ((splitChildren c5Booth 2 SplitDirection.horizontal cFreshId).get
        ⟨0, by simp [splitChildren]⟩).w ∧
      0 < ((splitChildren c5Booth 2 SplitDirection.horizontal cFreshId).get
        ⟨0, by simp [splitChildren]⟩).h) :=
  c8_resize_clamps_split_positive c5Booth c3Snap 30 40 1 2 SplitDirection.horizontal cFreshId
    _ (by norm_num [c5Booth]) (by norm_num [c5Booth]) (by norm_num) (List.get_mem _ _ _)

/-- C8 counterexample: splitting a booth one grid unit wide into two
parts yields children of width `5/2`, smaller than one grid unit - the
split step does not clamp sizes. -/
theorem c8_counterexample :
    ((splitChildren cNarrowBooth 2 SplitDirection.horizontal cFreshId).map (fun c => c.w))
      = [5 / 2, 5 / 2] ∧ (5 / 2 : ℝ) < GRID_SIZE := by
  have hrem : jsRem 0 180 = 0 := by
    norm_num [jsRem, jsTrunc]
  have hsw : splitAlongWidth 0 SplitDirection.horizontal := by
    simp [splitAlongWidth, hrem]
  constructor
  · simp [splitChildren, cNarrowBooth, hsw, List.range_succ]
  · norm_num [GRID_SIZE]

/-- Core of the resize invariant: one application of the resize geometry
leaves the anchor corner - chosen from the snapshot's sign pair - at
exactly its original world position, whatever the drag delta. -/
theorem resizeGeom_fixed_corner (initialItem : Snapshot) (dx dy scale : ℝ) :
    fixedCornerWorld
        ⟨(resizeGeom initialItem dx dy scale).x, (resizeGeom initialItem dx dy scale).y,
          (resizeGeom initialItem dx dy scale).w, (resizeGeom initialItem dx dy scale).h,
          initialItem.rotation⟩
        (anchorSigns initialItem).1 (anchorSigns initialItem).2
      = fixedCornerWorld initialItem (anchorSigns initialItem).1 (anchorSigns initialItem).2 := by
  simp only [resizeGeom, fixedCornerWorld, Prod.mk.injEq]
  constructor <;> ring

/-- Unfolding lemma: `resizeDrag` peels off its first delta. -/
theorem resizeDrag_cons (item : PlannerItem) (initialItem : Snapshot) (scale : ℝ)
    (d : ℝ × ℝ) (ds : List (ℝ × ℝ)) :
    resizeDrag item initialItem scale (d :: ds)
      = resizeDrag (resizeStep item initialItem d.1 d.2 scale) initialItem scale ds := rfl

/-- Drag invariant: rotation and the anchor corner's world position are
preserved by any sequence of resize deltas, given they hold at entry. -/
theorem resizeDrag_invariant (initialItem : Snapshot) (scale : ℝ) (deltas : List (ℝ × ℝ)) :
    ∀ item : PlannerItem, item.rotation = initialItem.rotation →
      fixedCornerWorld (snapshotOf item) (anchorSigns initialItem).1 (anchorSigns initialItem).2
        = fixedCornerWorld initialItem (anchorSigns initialItem).1 (anchorSigns initialItem).2 →
      (resizeDrag item initialItem scale deltas).rotation = initialItem.rotation ∧
      fixedCornerWorld (snapshotOf (resizeDrag item initialItem scale deltas))
          (anchorSigns initialItem).1 (anchorSigns initialItem).2
        = fixedCornerWorld initialItem (anchorSigns initialItem).1 (anchorSigns initialItem).2 := by
  induction deltas with
  | nil => exact fun item h1 h2 => ⟨h1, h2⟩
  | cons d ds ih =>
    intro item h1 h2
    rw [resizeDrag_cons]
    apply ih
    · simp only [resizeStep]
      exact h1
    · have hsnap : snapshotOf (resizeStep item initialItem d.1 d.2 scale) =
          ⟨(resizeGeom initialItem d.1 d.2 scale).x, (resizeGeom initialItem d.1 d.2 scale).y,
            (resizeGeom initialItem d.1 d.2 scale).w, (resizeGeom initialItem d.1 d.2 scale).h,
            initialItem.rotation⟩ := by
        simp only [resizeStep, snapshotOf, h1]
      rw [hsnap]
      exact resizeGeom_fixed_corner initialItem d.1 d.2 scale

/-- C3: starting a resize drag from an item whose geometry matches its
pointer-down snapshot, after any sequence of drag deltas the rotation
field is unchanged and the world coordinates of the anchor (fixed)
corner deviate from their pre-drag value by less than one grid unit
(in fact they are exactly preserved), for every rotation. -/
theorem c3_resize_fixed_corner (item : PlannerItem) (initialItem : Snapshot) (scale : ℝ)
    (deltas : List (ℝ × ℝ))
    (hx : item.x = initialItem.x) (hy : item.y = initialItem.y)
    (hw : item.w = initialItem.w) (hh : item.h = initialItem.h)
    (hr : item.rotation = initialItem.rotation) :
    (resizeDrag item initialItem scale deltas).rotation = item.rotation ∧
    |(fixedCornerWorld (snapshotOf (resizeDrag item initialItem scale deltas))
        (anchorSigns initialItem).1 (anchorSigns initialItem).2).1
      - (fixedCornerWorld initialItem (anchorSigns initialItem).1 (anchorSigns initialItem).2).1|
      < GRID_SIZE ∧
    |(fixedCornerWorld (snapshotOf (resizeDrag item initialItem scale deltas))
        (anchorSigns initialItem).1 (anchorSigns initialItem).2).2
      - (fixedCornerWorld initialItem (anchorSigns initialItem).1 (anchorSigns initialItem).2).2|
      < GRID_SIZE := by
  have hbase : snapshotOf item = initialItem := by
    simp only [snapshotOf, hx, hy, hw, hh, hr]
  have h := resizeDrag_invariant initialItem scale deltas item hr (by rw [hbase])
  refine ⟨by rw [h.1, hr], ?_, ?_⟩
  · rw [h.2]
    simp [grid_size_pos]
  · rw [h.2]
    simp [grid_size_pos]

/-- C3 witness: a concrete unrotated drag of one pointer-move event. -/
theorem c3_witness :
    (resizeDrag c3Item c3Snap 1 [(30, 40)]).rotation = c3Item.rotation ∧
    |(fixedCornerWorld (snapshotOf (resizeDrag c3Item c3Snap 1 [(30, 40)]))
        (anchorSigns c3Snap).1 (anchorSigns c3Snap).2).1
      - (fixedCornerWorld c3Snap (anchorSigns c3Snap).1 (anchorSigns c3Snap).2).1|
      < GRID_SIZE ∧
    |(fixedCornerWorld (snapshotOf (resizeDrag c3Item c3Snap 1 [(30, 40)]))
        (anchorSigns c3Snap).1 (anchorSigns c3Snap).2).2
      - (fixedCornerWorld c3Snap (anchorSigns c3Snap).1 (anchorSigns c3Snap).2).2|
      < GRID_SIZE :=
  c3_resize_fixed_corner c3Item c3Snap 1 [(30, 40)] rfl rfl rfl rfl rfl

/-- Denormalizing the normalized copy of a list of points gives back
the list, for any nonzero scale factors. -/
theorem round_trip_general (l pl : List Point) (minX minY w h : ℝ) (hw : w ≠ 0) (hh : h ≠ 0) :
    (l.map (fun q => Point.mk ((q.x - minX) / w) ((q.y - minY) / h))).map
      (denormalizePoint ⟨minX, minY, w, h, pl⟩) = l := by
  induction l with
  | nil => simp
  | cons a t ih =>
    simp only [List.map_cons, List.cons.injEq]
    refine ⟨?_, ih⟩
    cases a with
    | mk ax ay =>
      simp only [denormalizePoint, Point.mk.injEq]
      constructor
      · field_simp
      · field_simp

/-- C7: for every non-empty list of world points, `normalizePoints`
followed by the inverse transform `(p.x*w + minX, p.y*h + minY)`
reconstructs the original points exactly (the floor of 1 on `w`,`h`
does not break exactness, because the same `w`,`h` divide and
multiply). -/
theorem c7_normalize_round_trip (pts : List Point) (r : NormResult)
    (h : normalizePoints pts = some r) :
    r.points.map (denormalizePoint r) = pts := by
  cases pts with
  | nil => simp [normalizePoints] at h
  | cons p ps =>
    simp only [normalizePoints, Option.some.injEq] at h
    subst h
    exact round_trip_general (p :: ps) _ _ _ _ _
      (ne_of_gt (lt_of_lt_of_le one_pos (le_max_left _ _)))
      (ne_of_gt (lt_of_lt_of_le one_pos (le_max_left _ _)))

/-- C7 witness: the concrete triangle normalizes to `c7Res` and
denormalizes back to itself. -/
theorem c7_witness : c7Res.points.map (denormalizePoint c7Res) = c7Pts :=
  c7_normalize_round_trip c7Pts c7Res (by
    norm_num [normalizePoints, c7Pts, c7Res, min_def, max_def])

/-- Area of the rotated bounding box: `w*h` plus a rotation excess
proportional to `|cos*sin|`. -/
theorem bb_area_formula (w h θ : ℝ) :
    (w * |Real.cos θ| + h * |Real.sin θ|) * (w * |Real.sin θ| + h * |Real.cos θ|)
      = w * h + (w ^ 2 + h ^ 2) * |Real.cos θ * Real.sin θ| := by
  have hA := abs_mul_abs_self (Real.cos θ)
  have hB := abs_mul_abs_self (Real.sin θ)
  have h1 := Real.sin_sq_add_cos_sq θ
  rw [abs_mul]
  linear_combination (w * h) * hA + (w * h) * hB + (w * h) * h1

/-- Characterization: `cos(r°) * sin(r°) = 0` exactly at the integer multiples of 90
degrees. -/
theorem cos_mul_sin_eq_zero_iff (r : ℝ) :
    Real.cos (r * Real.pi / 180) * Real.sin (r * Real.pi / 180) = 0 ↔
      ∃ k : ℤ, r = 90 * k := by
  rw [mul_eq_zero]
  constructor
  · rintro (hc | hs)
    · rw [Real.cos_eq_zero_iff] at hc
      obtain ⟨n, hn⟩ := hc
      refine ⟨2 * n + 1, ?_⟩
      have h2 : r * Real.pi = 90 * (2 * (n : ℝ) + 1) * Real.pi := by
        field_simp at hn
        linarith
      have h3 := mul_right_cancel₀ Real.pi_ne_zero h2
      push_cast
      linarith
    · rw [Real.sin_eq_zero_iff] at hs
      obtain ⟨n, hn⟩ := hs
      refine ⟨2 * n, ?_⟩
      have h2 : r * Real.pi = 90 * (2 * (n : ℝ)) * Real.pi := by
        field_simp at hn
        linarith
      have h3 := mul_right_cancel₀ Real.pi_ne_zero h2
      push_cast
      linarith
  · rintro ⟨k, rfl⟩
    rcases Int.even_or_odd k with ⟨m, hm⟩ | ⟨m, hm⟩
    · right
      rw [Real.sin_eq_zero_iff]
      refine ⟨m, ?_⟩
      rw [hm]
      push_cast
      ring
    · left
      rw [Real.cos_eq_zero_iff]
      refine ⟨m, ?_⟩
      rw [hm]
      push_cast
      ring

/-- C6 amended: for positive sides, the axis-aligned bounding-box area
is at least `w*h`, with equality exactly when the rotation is an
integer multiple of 90 degrees (not only `{0,90,180,270}`). -/
theorem c6_bounding_area (item : PlannerItem) (hw : 0 < item.w) (hh : 0 < item.h) :
    item.w * item.h ≤ (getBoundingBox item).w * (getBoundingBox item).h ∧
    ((getBoundingBox item).w * (getBoundingBox item).h = item.w * item.h ↔
      ∃ k : ℤ, item.rotation = 90 * k) := by
  by_cases hr : item.rotation = 0
  · simp only [getBoundingBox, if_pos hr]
    exact ⟨le_refl _, by
      constructor
      · intro _
        exact ⟨0, by rw [hr]; norm_num⟩
      · intro _
        trivial⟩
  · simp only [getBoundingBox, if_neg hr]
    have hkey := bb_area_formula item.w item.h (item.rotation * Real.pi / 180)
    have habs : 0 ≤ |Real.cos (item.rotation * Real.pi / 180) *
        Real.sin (item.rotation * Real.pi / 180)| := abs_nonneg _
    have hsq : (0 : ℝ) < item.w ^ 2 + item.h ^ 2 := by positivity
    constructor
    · rw [hkey]
      nlinarith [mul_nonneg (le_of_lt hsq) habs]
    · rw [hkey]
      constructor
      · intro heq
        have hz : (item.w ^ 2 + item.h ^ 2) *
            |Real.cos (item.rotation * Real.pi / 180) *
              Real.sin (item.rotation * Real.pi / 180)| = 0 := by linarith
        have hcs : |Real.cos (item.rotation * Real.pi / 180) *
            Real.sin (item.rotation * Real.pi / 180)| = 0 := by
          rcases mul_eq_zero.mp hz with h0 | h0
          · exact absurd h0 (ne_of_gt hsq)
          · exact h0
        rw [abs_eq_zero] at hcs
        exact (cos_mul_sin_eq_zero_iff item.rotation).mp hcs
      · intro hk
        have hcs := (cos_mul_sin_eq_zero_iff item.rotation).mpr hk
        rw [hcs, abs_zero, mul_zero, add_zero]

/-- C6 counterexample: at rotation 360 the bounding-box area equals the
rectangle's area, yet 360 is not in `{0, 90, 180, 270}` - so "equality
exactly on that set" fails over all rotation angles. -/
theorem c6_counterexample :
    (getBoundingBox cFullTurn).w * (getBoundingBox cFullTurn).h
        = cFullTurn.w * cFullTurn.h ∧
    cFullTurn.rotation ∉ ({0, 90, 180, 270} : Set ℝ) := by
  have hbb : getBoundingBox cFullTurn = ⟨0, 0, 200, 100⟩ := by
    simp only [getBoundingBox, cFullTurn]
    rw [if_neg (by norm_num)]
    have h360 : (360 : ℝ) * Real.pi / 180 = 2 * Real.pi := by ring
    rw [h360, Real.cos_two_pi, Real.sin_two_pi]
    norm_num [Rect.mk.injEq]
  rw [hbb]
  constructor
  · norm_num [cFullTurn]
  · simp only [cFullTurn, Set.mem_insert_iff, Set.mem_singleton_iff]
    push_neg
    norm_num

/-- C6 witness: the amended characterization at the concrete 360-degree
rectangle (`360 = 90 * 4`). -/
theorem c6_witness :
    ((0 : ℝ) < cFullTurn.w ∧ (0 : ℝ) < cFullTurn.h) ∧
    (cFullTurn.w * cFullTurn.h ≤ (getBoundingBox cFullTurn).w * (getBoundingBox cFullTurn).h ∧
      ((getBoundingBox cFullTurn).w * (getBoundingBox cFullTurn).h = cFullTurn.w * cFullTurn.h ↔
        ∃ k : ℤ, cFullTurn.rotation = 90 * k)) :=
  ⟨⟨by norm_num [cFullTurn], by norm_num [cFullTurn]⟩,
   c6_bounding_area cFullTurn (by norm_num [cFullTurn]) (by norm_num [cFullTurn])⟩
